import Mathlib

/-!
Verification of the tile-world engine of the `mythara` repository.

The development shallowly embeds the relevant parts of
`src/game/movement.rs` and `src/game/tiled_map.rs`:

* world-space positions use exact rationals (`ℚ`) in place of `f32`;
* tile coordinates are pairs of integers (`IVec2` becomes `ℤ × ℤ`);
* the `HashSet<IVec2>` of blocked tiles becomes a `Finset (ℤ × ℤ)`;
* the per-frame systems (`apply_movement`, `process_loaded_maps`) become
  pure state-passing functions.
-/

namespace Mythara

/-- One cell of a finite tile layer, as produced by the map parser:
the owning tileset index, the local tile id (`layer_tile.id()`), and the
three flip flags carried by `LayerTileData`. -/
structure LayerTile where
  tileset_index : Nat
  tile_id : Nat
  flip_h : Bool
  flip_v : Bool
  flip_d : Bool
deriving DecidableEq

/-- A finite tile layer's grid, looked up at raw TMX coordinates, mirroring
`FiniteTileLayer::get_tile` / `get_tile_data` (which read the same cell:
`some` exactly when the cell is occupied and in bounds). -/
abbrev FiniteGrid := Nat → Nat → Option LayerTile

/-- The `CollisionTiles` resource of `tiled_map.rs`:
blocked tile coordinates plus the parameters of the isometric transform. -/
structure CollisionTiles where
  blocked : Finset (Int × Int)
  map_size : Nat × Nat
  grid_size : ℚ × ℚ
  layer_offset : ℚ × ℚ
deriving DecidableEq

/-- `CollisionTiles::default()`: empty blocked set, zero sizes and offset. -/
def default_collision_tiles : CollisionTiles :=
  { blocked := ∅, map_size := (0, 0), grid_size := (0, 0), layer_offset := (0, 0) }

/-- `world_to_iso_tile` from `movement.rs` lines 80-102: the inverse
diamond-isometric transform from a world position to a tile coordinate. -/
def world_to_iso_tile (world : ℚ × ℚ) (c : CollisionTiles) : Int × Int :=
  let half_w : ℚ := c.grid_size.1 / 2
  let half_h : ℚ := c.grid_size.2 / 2
  let center_x : ℚ := ((c.map_size.1 : ℚ) - 1) / 2
  let center_y : ℚ := ((c.map_size.2 : ℚ) - 1) / 2
  let lx : ℚ := world.1 - c.layer_offset.1
  let ly : ℚ := world.2 - c.layer_offset.2
  let sx : ℚ := lx / half_w
  let sy : ℚ := ly / half_h
  let tx : ℚ := (sy + sx) / 2 + center_x
  let ty : ℚ := (sy - sx) / 2 + center_y
  (⌊tx⌋, ⌊ty⌋)

/-- The forward diamond-isometric projection, written exactly as stated in the
inline derivation comment of `world_to_iso_tile` (movement.rs lines 95-97):
`world.x = (x - y - (center_x - center_y)) * half_w + offset_x` and
`world.y = (x + y - (center_x + center_y)) * half_h - offset_y`, where
`c.layer_offset = (offset_x, -offset_y)`. -/
def iso_tile_to_world (tile : Int × Int) (c : CollisionTiles) : ℚ × ℚ :=
  let half_w : ℚ := c.grid_size.1 / 2
  let half_h : ℚ := c.grid_size.2 / 2
  let center_x : ℚ := ((c.map_size.1 : ℚ) - 1) / 2
  let center_y : ℚ := ((c.map_size.2 : ℚ) - 1) / 2
  (((tile.1 : ℚ) - (tile.2 : ℚ) - (center_x - center_y)) * half_w + c.layer_offset.1,
   ((tile.1 : ℚ) + (tile.2 : ℚ) - (center_x + center_y)) * half_h + c.layer_offset.2)

/-- The body of `apply_movement` (movement.rs lines 59-77) for one actor.
`translation` is the actor's transform translation `(x, y, z)`; the velocity is
`max_speed * intent`; the first branch is taken when the velocity is zero or no
tile is blocked, otherwise the destination tile gates the move. -/
def apply_movement (c : CollisionTiles) (translation : ℚ × ℚ × ℚ)
    (max_speed : ℚ) (intent : ℚ × ℚ) (dt : ℚ) : ℚ × ℚ × ℚ :=
  let vx : ℚ := max_speed * intent.1
  let vy : ℚ := max_speed * intent.2
  if vx * vx + vy * vy = 0 ∨ c.blocked = ∅ then
    (translation.1 + vx * dt, translation.2.1 + vy * dt, translation.2.2 + 0 * dt)
  else
    if world_to_iso_tile (translation.1 + vx * dt, translation.2.1 + vy * dt) c ∈ c.blocked then
      translation
    else
      (translation.1 + vx * dt, translation.2.1 + vy * dt, translation.2.2)

/-- An `AssetEvent<TiledMap>` carried by the per-tick event reader; ids are
abstracted to naturals.  `unused` stands for the event kinds matched by the
catch-all `_ => continue` arm. -/
inductive TiledAssetEvent where
  | added (id : Nat)
  | modified (id : Nat)
  | removed (id : Nat)
  | unused (id : Nat)
deriving DecidableEq

/-- One step of the event loop of `process_loaded_maps` (tiled_map.rs lines
159-177): `Added`/`Modified` push the id; `Removed` runs
`changed_maps.retain(|changed_handle| changed_handle == id)`. -/
def process_map_event (changed : List Nat) (e : TiledAssetEvent) : List Nat :=
  match e with
  | .added i => changed ++ [i]
  | .modified i => changed ++ [i]
  | .removed i => changed.filter (fun h => h == i)
  | .unused _ => changed

/-- The whole event-collection phase: fold the tick's events over an initially
empty `changed_maps` list. -/
def collect_changed_maps (events : List TiledAssetEvent) : List Nat :=
  events.foldl process_map_event []

/-- The kind of a layer: a finite tile layer carrying its grid, an infinite
tile layer, or a non-tile (object/image/group) layer.  The latter two are
skipped by `process_loaded_maps` with an info log. -/
inductive LayerKind where
  | tiles_finite (grid : FiniteGrid)
  | tiles_infinite
  | not_tiles

/-- A layer of the parsed map document: id, name, pixel offsets, and kind. -/
structure TiledLayer where
  layer_id : Nat
  name : String
  offset_x : ℚ
  offset_y : ℚ
  kind : LayerKind

/-- A tileset of the parsed map document.  `image` is `some` exactly when the
tileset has a single image; the asset loader only records a texture in
`tilemap_textures` for such tilesets. -/
structure TiledTileset where
  tileset_name : String
  tile_width : Nat
  tile_height : Nat
  spacing : Nat
  image : Option String

/-- The `tiled::Orientation` of the map. -/
inductive MapOrient where
  | orthogonal
  | isometric
  | staggered
  | hexagonal
deriving DecidableEq

/-- The parsed map document (`tiled::Map` as used by `process_loaded_maps`). -/
structure TiledMapDoc where
  width : Nat
  height : Nat
  tile_width : Nat
  tile_height : Nat
  orient : MapOrient
  tilesets : List TiledTileset
  layers : List TiledLayer

/-- The collision contribution of one loop cell `(x, y)` (tiled_map.rs lines
284-338, collision part): the raw row is `height - 1 - y`; an occupied cell
whose tile belongs to tileset `ts` yields the rotated coordinate
`(y, width - 1 - x)`, every other cell yields nothing. -/
def cell_collision (grid : FiniteGrid) (width height ts x y : Nat) : Option (Int × Int) :=
  match grid x (height - 1 - y) with
  | some t =>
      if t.tileset_index = ts then some ((y : Int), (width : Int) - 1 - (x : Int)) else none
  | none => none

/-- All rotated collision coordinates inserted while scanning a finite tile
layer for tileset `ts`, in the nested `for x { for y }` loop order. -/
def collision_inserts (grid : FiniteGrid) (width height ts : Nat) : List (Int × Int) :=
  (List.range width).flatMap (fun x =>
    (List.range height).filterMap (fun y => cell_collision grid width height ts x y))

/-- The `CollisionTiles` state produced by one collision-layer pass
(tiled_map.rs lines 272-282 and 332-338): blocked cleared and refilled from the
layer scan, sizes taken from the map document, vertical offset negated. -/
def rebuilt_collisions (doc : TiledMapDoc) (ts : Nat) (layer : TiledLayer)
    (grid : FiniteGrid) : CollisionTiles :=
  { blocked := (collision_inserts grid doc.width doc.height ts).toFinset
    map_size := (doc.width, doc.height)
    grid_size := ((doc.tile_width : ℚ), (doc.tile_height : ℚ))
    layer_offset := (layer.offset_x, -layer.offset_y) }

/-- The effect of one `(tileset, layer)` pass on the `CollisionTiles`
resource: non-tile and infinite layers were already skipped by the guards, and
only a finite tile layer named exactly `"Collisions"` rebuilds the resource. -/
def process_layer_collisions (doc : TiledMapDoc) (ts : Nat) (layer : TiledLayer)
    (c : CollisionTiles) : CollisionTiles :=
  match layer.kind with
  | .tiles_finite grid =>
      if layer.name = "Collisions" then rebuilt_collisions doc ts layer grid else c
  | .tiles_infinite => c
  | .not_tiles => c

/-- A tile placement spawned for one occupied cell: position in tile space,
texture index (`layer_tile.id()`), and the three flip flags. -/
structure TilePlacement where
  pos : Nat × Nat
  texture_index : Nat
  flip_h : Bool
  flip_v : Bool
  flip_d : Bool
deriving DecidableEq

/-- The placement contribution of one loop cell `(x, y)` (tiled_map.rs lines
284-330): raw row `height - 1 - y`, tiles of other tilesets skipped, position
`(x, y)` with the cell's texture index and flip flags. -/
def cell_placement (grid : FiniteGrid) (height ts x y : Nat) : Option TilePlacement :=
  match grid x (height - 1 - y) with
  | some t =>
      if t.tileset_index = ts then
        some { pos := (x, y), texture_index := t.tile_id,
               flip_h := t.flip_h, flip_v := t.flip_v, flip_d := t.flip_d }
      else none
  | none => none

/-- All tile placements spawned for one `(tileset, layer)` pass over a finite
tile layer. -/
def layer_placements (grid : FiniteGrid) (width height ts : Nat) : List TilePlacement :=
  (List.range width).flatMap (fun x =>
    (List.range height).filterMap (fun y => cell_placement grid height ts x y))

/-- The tileset indices for which the asset loader stored a texture in
`tilemap_textures`: exactly the tilesets carrying an image (the loader's
`None => continue` arm skips the rest, and `process_loaded_maps` skips
tilesets absent from `tilemap_textures` with a warning). -/
def texture_indices (doc : TiledMapDoc) : List Nat :=
  (List.range doc.tilesets.length).filter (fun i =>
    match doc.tilesets[i]? with
    | some tset => tset.image.isSome
    | none => false)

/-- The `(tileset index, layer index)` pairs visited by the nested
`for (tileset_index, tileset)` / `for (layer_index, layer)` loops of
`process_loaded_maps`, in execution order. -/
def pass_list (doc : TiledMapDoc) : List (Nat × Nat) :=
  (texture_indices doc).flatMap (fun tsIdx =>
    (List.range doc.layers.length).map (fun li => (tsIdx, li)))

/-- The `(tileset index, layer index, placements)` combination built by one
pass, if its layer is a finite tile layer (other layers are skipped with an
info log). -/
def build_entry (doc : TiledMapDoc) (p : Nat × Nat) :
    Option (Nat × Nat × List TilePlacement) :=
  match doc.layers[p.2]? with
  | some layer =>
      match layer.kind with
      | .tiles_finite grid =>
          some (p.1, p.2, layer_placements grid doc.width doc.height p.1)
      | .tiles_infinite => none
      | .not_tiles => none
  | none => none

/-- Every `(tileset index, layer index, placements)` combination actually
built by one reconciliation pass. -/
def build_entries (doc : TiledMapDoc) : List (Nat × Nat × List TilePlacement) :=
  (pass_list doc).filterMap (build_entry doc)

/-- The layer entity registry of one map instance, by content: layer index to
the list of tile placements owned by the registered layer entity. -/
abbrev RegistryContent := Nat → Option (List TilePlacement)

/-- The teardown phase of `process_loaded_maps` (lines 191-199) in content
terms: every registered layer keeps its registry slot (the
`despawn_recursive` call on the layer entity is commented out) but all tile
placements it owns are despawned. -/
def clear_registry_tiles (reg : RegistryContent) : RegistryContent :=
  fun i => (reg i).map (fun _ => [])

/-- One `(tileset, layer)` pass of the rebuild phase, acting on the collision
resource and the registry content: a finite tile layer rebuilds the collision
grid when applicable and registers its placements under its layer index
(`layer_storage.storage.insert`, line 361-363); other layers are skipped. -/
def reconcile_step (doc : TiledMapDoc) (st : CollisionTiles × RegistryContent)
    (p : Nat × Nat) : CollisionTiles × RegistryContent :=
  match doc.layers[p.2]? with
  | some layer =>
      match layer.kind with
      | .tiles_finite grid =>
          (process_layer_collisions doc p.1 layer st.1,
           fun i => if i = p.2 then some (layer_placements grid doc.width doc.height p.1)
                    else st.2 i)
      | .tiles_infinite => st
      | .not_tiles => st
  | none => st

/-- One full reconciliation of a changed map with a resolved document:
teardown of all registered tile placements, then the nested rebuild pass. -/
def reconcile_map (doc : TiledMapDoc) (st : CollisionTiles × RegistryContent) :
    CollisionTiles × RegistryContent :=
  (pass_list doc).foldl (reconcile_step doc) (st.1, clear_registry_tiles st.2)

/-- The collision-resource component of `reconcile_step`, for reasoning about
the first projection of the fold. -/
def collision_step (doc : TiledMapDoc) (c : CollisionTiles) (p : Nat × Nat) :
    CollisionTiles :=
  match doc.layers[p.2]? with
  | some layer => process_layer_collisions doc p.1 layer c
  | none => c

/-- The registry-content component of `reconcile_step`, for reasoning about
the second projection of the fold. -/
def registry_step (doc : TiledMapDoc) (r : RegistryContent) (p : Nat × Nat) :
    RegistryContent :=
  match doc.layers[p.2]? with
  | some layer =>
      match layer.kind with
      | .tiles_finite grid =>
          fun i => if i = p.2 then some (layer_placements grid doc.width doc.height p.1)
                   else r i
      | .tiles_infinite => r
      | .not_tiles => r
  | none => r

/-- First-wins choice on options (`oget o a` is `o` unless `o` is `none`). -/
def oget {γ : Type} (o : Option γ) (a : Option γ) : Option γ :=
  match o with
  | some v => some v
  | none => a

/-- The registry write performed at index `i` by the pass `p`, if any. -/
def registry_hit (doc : TiledMapDoc) (i : Nat) (p : Nat × Nat) :
    Option (List TilePlacement) :=
  match doc.layers[p.2]? with
  | some layer =>
      match layer.kind with
      | .tiles_finite grid =>
          if i = p.2 then some (layer_placements grid doc.width doc.height p.1) else none
      | .tiles_infinite => none
      | .not_tiles => none
  | none => none

/-- The last registry write at index `i` over a whole pass list. -/
def last_hit (doc : TiledMapDoc) (L : List (Nat × Nat)) (i : Nat) :
    Option (List TilePlacement) :=
  L.foldl (fun acc p => oget (registry_hit doc i p) acc) none

/-- The collision rebuild performed by the pass `p`, if any: a finite tile
layer named `"Collisions"` rebuilds the resource from scratch for that pass's
tileset, every other pass writes nothing. -/
def collision_hit (doc : TiledMapDoc) (p : Nat × Nat) : Option CollisionTiles :=
  match doc.layers[p.2]? with
  | some layer =>
      match layer.kind with
      | .tiles_finite grid =>
          if layer.name = "Collisions" then
            some (rebuilt_collisions doc p.1 layer grid)
          else none
      | .tiles_infinite => none
      | .not_tiles => none
  | none => none

/-- The last collision rebuild over the whole reconciliation pass list: since
every rebuild clears and refills the blocked set, the final collision state is
the last rebuild's (or the previous state when no pass rebuilds). -/
def last_collision (doc : TiledMapDoc) : Option CollisionTiles :=
  (pass_list doc).foldl (fun acc p => oget (collision_hit doc p) acc) none

/-- A minimal ECS world for the entity bookkeeping of `process_loaded_maps`:
the fresh-id counter, the set of live entities, the tile entities stored in
each layer entity's `TileStorage`, and the `TiledLayersStorage` registry as an
association list from layer index to layer entity. -/
structure EcsState where
  next_id : Nat
  live : Finset Nat
  tiles_of : Nat → List Nat
  registry : List (Nat × Nat)

/-- `HashMap::insert` on the association-list registry: replace the entry with
the given key if present, otherwise append. -/
def registry_insert (reg : List (Nat × Nat)) (k v : Nat) : List (Nat × Nat) :=
  if reg.any (fun q => q.1 == k) then
    reg.map (fun q => if q.1 = k then (k, v) else q)
  else reg ++ [(k, v)]

/-- The teardown phase (tiled_map.rs lines 191-199): for every registered
layer entity, despawn every tile entity in its `TileStorage`.  The layer
entity itself is not despawned (that call is commented out in the source). -/
def despawn_tiles (s : EcsState) : EcsState :=
  { s with
    live := s.registry.foldl
      (fun l kv => (s.tiles_of kv.2).foldl (fun l2 t => l2.erase t) l) s.live }

/-- Spawning one layer in the rebuild phase (lines 269-363): a fresh layer
entity, then one fresh tile entity per placement; the layer's `TileStorage`
holds the new tile ids and the registry entry for the layer index is
replaced. -/
def spawn_layer (s : EcsState) (layerIdx : Nat) (tileCount : Nat) : EcsState :=
  let e := s.next_id
  let tileIds := (List.range tileCount).map (fun j => s.next_id + 1 + j)
  { next_id := s.next_id + 1 + tileCount
    live := tileIds.foldl (fun l t => insert t l) (insert e s.live)
    tiles_of := fun x => if x = e then tileIds else s.tiles_of x
    registry := registry_insert s.registry layerIdx e }

/-- One `(tileset, layer)` pass of the rebuild phase at the entity level:
a finite tile layer spawns a layer entity with its placements' tile entities;
other layers are skipped. -/
def spawn_step (doc : TiledMapDoc) (s : EcsState) (p : Nat × Nat) : EcsState :=
  match doc.layers[p.2]? with
  | some layer =>
      match layer.kind with
      | .tiles_finite grid =>
          spawn_layer s p.2 (layer_placements grid doc.width doc.height p.1).length
      | .tiles_infinite => s
      | .not_tiles => s
  | none => s

/-- One full reconciliation of a changed map at the entity level: teardown of
all registered tile placements, then the nested rebuild pass. -/
def reconcile_entities (doc : TiledMapDoc) (s : EcsState) : EcsState :=
  (pass_list doc).foldl (spawn_step doc) (despawn_tiles s)

/-- Concrete 3×3 layer grid with exactly the raw cell (1, 1) occupied by a
tile of tileset 0. -/
def grid_c : FiniteGrid := fun x y =>
  if x = 1 ∧ y = 1 then
    some { tileset_index := 0, tile_id := 7, flip_h := false, flip_v := false, flip_d := false }
  else none

/-- Concrete collision layer over `grid_c`. -/
def layer_c : TiledLayer :=
  { layer_id := 1, name := "Collisions", offset_x := 0, offset_y := 0,
    kind := LayerKind.tiles_finite grid_c }

/-- Concrete 3×3 isometric map document with one imaged tileset and the
collision layer `layer_c`. -/
def doc_c : TiledMapDoc :=
  { width := 3, height := 3, tile_width := 32, tile_height := 32,
    orient := MapOrient.isometric,
    tilesets := [{ tileset_name := "t", tile_width := 32, tile_height := 32,
                   spacing := 0, image := some "tiles.png" }],
    layers := [layer_c] }

/-- Concrete pre-existing collision state, to exhibit that a rebuild discards
it. -/
def stale_c : CollisionTiles :=
  { blocked := {(9, 9)}, map_size := (7, 7), grid_size := (1, 1), layer_offset := (2, 3) }

/-- Concrete ECS state with one registered layer entity 5 owning the tile
entity 6, both live, fresh ids starting at 10. -/
def ecs_c : EcsState :=
  { next_id := 10, live := {5, 6}, tiles_of := fun e => if e = 5 then [6] else [],
    registry := [(0, 5)] }

/-- Concrete 1×1 layer grid whose single cell holds a tile of tileset 1. -/
def grid_m : FiniteGrid := fun x y =>
  if x = 0 ∧ y = 0 then
    some { tileset_index := 1, tile_id := 3, flip_h := false, flip_v := true, flip_d := false }
  else none

/-- Concrete ground layer over `grid_m`. -/
def layer_m : TiledLayer :=
  { layer_id := 2, name := "Ground", offset_x := 0, offset_y := 0,
    kind := LayerKind.tiles_finite grid_m }

/-- Concrete tileset without a resolved image. -/
def broken_tileset : TiledTileset :=
  { tileset_name := "broken", tile_width := 16, tile_height := 16, spacing := 0, image := none }

/-- Concrete tileset with a resolved image. -/
def ok_tileset : TiledTileset :=
  { tileset_name := "ok", tile_width := 16, tile_height := 16, spacing := 0,
    image := some "ok.png" }

/-- Concrete 1×1 map document whose tileset 0 lacks an image while tileset 1
has one. -/
def doc_m : TiledMapDoc :=
  { width := 1, height := 1, tile_width := 16, tile_height := 16,
    orient := MapOrient.isometric,
    tilesets := [broken_tileset, ok_tileset],
    layers := [layer_m] }

/-- Concrete imaged tileset 0 of the two-tileset collision map. -/
def tileset_a : TiledTileset :=
  { tileset_name := "a", tile_width := 32, tile_height := 32, spacing := 0,
    image := some "a.png" }

/-- Concrete imaged tileset 1 of the two-tileset collision map. -/
def tileset_b : TiledTileset :=
  { tileset_name := "b", tile_width := 32, tile_height := 32, spacing := 0,
    image := some "b.png" }

/-- Concrete 2×1 collision-layer grid: cell (0, 0) holds a tile of tileset 0,
cell (1, 0) a tile of tileset 1. -/
def grid_2 : FiniteGrid := fun x y =>
  if x = 0 ∧ y = 0 then
    some { tileset_index := 0, tile_id := 1, flip_h := false, flip_v := false, flip_d := false }
  else if x = 1 ∧ y = 0 then
    some { tileset_index := 1, tile_id := 2, flip_h := false, flip_v := false, flip_d := false }
  else none

/-- Concrete collision layer over `grid_2`. -/
def layer_2 : TiledLayer :=
  { layer_id := 3, name := "Collisions", offset_x := 0, offset_y := 0,
    kind := LayerKind.tiles_finite grid_2 }

/-- Concrete 2×1 map document with two imaged tilesets whose collision layer
mixes tiles of both. -/
def doc_2 : TiledMapDoc :=
  { width := 2, height := 1, tile_width := 32, tile_height := 32,
    orient := MapOrient.isometric,
    tilesets := [tileset_a, tileset_b],
    layers := [layer_2] }

end Mythara

namespace Mythara

/-- Auxiliary: a pair of floors is an integer pair when the arguments are the
casts of those integers. -/
theorem floor_pair_eq {A B : ℚ} {x y : ℤ} (hA : A = (x : ℚ)) (hB : B = (y : ℚ)) :
    ((⌊A⌋, ⌊B⌋) : ℤ × ℤ) = (x, y) := by
  rw [hA, hB, Int.floor_intCast, Int.floor_intCast]

/-- C1: for every grid size with positive cell dimensions, every map size and
every layer offset, the inverse transform `world_to_iso_tile` applied to the
forward-projected world position of any in-bounds tile `(x, y)` returns exactly
`(x, y)` after floor quantization. -/
theorem iso_round_trip (c : CollisionTiles)
    (hgw : 0 < c.grid_size.1) (hgh : 0 < c.grid_size.2) (x y : ℤ)
    (hx : 0 ≤ x ∧ x < (c.map_size.1 : ℤ)) (hy : 0 ≤ y ∧ y < (c.map_size.2 : ℤ)) :
    world_to_iso_tile (iso_tile_to_world (x, y) c) c = (x, y) := by
  obtain ⟨b, ms, gs, lo⟩ := c
  obtain ⟨gw, gh⟩ := gs
  obtain ⟨mw, mh⟩ := ms
  obtain ⟨ox, oy⟩ := lo
  simp only at hgw hgh
  have hw : gw / 2 ≠ 0 := by positivity
  have hh : gh / 2 ≠ 0 := by positivity
  simp only [world_to_iso_tile, iso_tile_to_world]
  apply floor_pair_eq
  · rw [add_sub_cancel_right, add_sub_cancel_right,
      mul_div_cancel_right₀ _ hh, mul_div_cancel_right₀ _ hw]
    ring
  · rw [add_sub_cancel_right, add_sub_cancel_right,
      mul_div_cancel_right₀ _ hh, mul_div_cancel_right₀ _ hw]
    ring

/-- C1 witness: concrete instantiation at grid 32×32, map 3×3, offset (5, -7),
tile (1, 2). -/
theorem iso_round_trip_witness :
    world_to_iso_tile
      (iso_tile_to_world (1, 2)
        { blocked := ∅, map_size := (3, 3), grid_size := (32, 32), layer_offset := (5, -7) })
      { blocked := ∅, map_size := (3, 3), grid_size := (32, 32), layer_offset := (5, -7) }
      = (1, 2) :=
  iso_round_trip
    { blocked := ∅, map_size := (3, 3), grid_size := (32, 32), layer_offset := (5, -7) }
    (by norm_num) (by norm_num) 1 2 (by norm_num) (by norm_num)

/-- C2: the code keeps only the removed id in the pending change set instead of
dropping it: after `[Added 0, Removed 0]` the change set is `[0]` (the claim
requires it to be empty), and after `[Added 1, Removed 0]` the unrelated
pending id 1 is dropped as well. -/
theorem removed_event_keeps_only_removed_id :
    collect_changed_maps [TiledAssetEvent.added 0, TiledAssetEvent.removed 0] = [0] ∧
    collect_changed_maps [TiledAssetEvent.added 1, TiledAssetEvent.removed 0] = [] := by
  constructor <;> rfl

/-- Auxiliary characterization of one cell's collision contribution. -/
theorem cell_collision_eq_some {grid : FiniteGrid} {width height ts x y : Nat}
    {p : Int × Int} :
    cell_collision grid width height ts x y = some p ↔
      (∃ t, grid x (height - 1 - y) = some t ∧ t.tileset_index = ts) ∧
        p = ((y : Int), (width : Int) - 1 - (x : Int)) := by
  unfold cell_collision
  cases hg : grid x (height - 1 - y) with
  | none => simp
  | some t =>
      by_cases hts : t.tileset_index = ts
      · simp [hts, eq_comm]
      · simp [hts]

/-- Auxiliary: a coordinate is in the blocked set extracted by one
`(tileset ts, collision layer)` pass over an N-wide grid iff it is the
90°-CCW-rotated image `(y, N-1-x)` of an occupied (row-remapped) cell `(x, y)`
whose tile belongs to tileset `ts`. -/
theorem collision_inserts_mem (grid : FiniteGrid) (width height ts : Nat)
    (p : Int × Int) :
    p ∈ (collision_inserts grid width height ts).toFinset ↔
      ∃ x y : Nat, x < width ∧ y < height ∧
        (∃ t, grid x (height - 1 - y) = some t ∧ t.tileset_index = ts) ∧
        p = ((y : Int), (width : Int) - 1 - (x : Int)) := by
  simp only [List.mem_toFinset, collision_inserts, List.mem_flatMap,
    List.mem_filterMap, List.mem_range]
  constructor
  · rintro ⟨x, hx, y, hy, hcell⟩
    obtain ⟨hocc, hp⟩ := cell_collision_eq_some.mp hcell
    exact ⟨x, y, hx, hy, hocc, hp⟩
  · rintro ⟨x, y, hx, hy, hocc, hp⟩
    exact ⟨x, hx, y, hy, cell_collision_eq_some.mpr ⟨hocc, hp⟩⟩

/-- Auxiliary: a sum of two squares of rationals vanishes only if both do. -/
theorem sq_add_sq_eq_zero {a b : ℚ} (hab : a * a + b * b = 0) : a = 0 ∧ b = 0 := by
  have ha : a * a = 0 :=
    le_antisymm (by nlinarith [mul_self_nonneg b]) (mul_self_nonneg a)
  have hb : b * b = 0 :=
    le_antisymm (by nlinarith [mul_self_nonneg a]) (mul_self_nonneg b)
  exact ⟨mul_self_eq_zero.mp ha, mul_self_eq_zero.mp hb⟩

/-- C4: with an empty blocked set the intended movement is applied
unconditionally; with the destination tile blocked the translation is
unchanged (hard stop); with a nonempty blocked set and an unblocked
destination tile the move is applied in full. -/
theorem movement_collision_gating (c : CollisionTiles) (t : ℚ × ℚ × ℚ)
    (ms : ℚ) (i : ℚ × ℚ) (dt : ℚ) :
    (c.blocked = ∅ →
       apply_movement c t ms i dt
         = (t.1 + ms * i.1 * dt, t.2.1 + ms * i.2 * dt, t.2.2)) ∧
    (world_to_iso_tile (t.1 + ms * i.1 * dt, t.2.1 + ms * i.2 * dt) c ∈ c.blocked →
       apply_movement c t ms i dt = t) ∧
    (c.blocked ≠ ∅ →
       world_to_iso_tile (t.1 + ms * i.1 * dt, t.2.1 + ms * i.2 * dt) c ∉ c.blocked →
       apply_movement c t ms i dt
         = (t.1 + ms * i.1 * dt, t.2.1 + ms * i.2 * dt, t.2.2)) := by
  refine ⟨?_, ?_, ?_⟩
  · intro hb
    simp only [apply_movement]
    rw [if_pos (Or.inr hb), zero_mul, add_zero]
  · intro hmem
    have hb : c.blocked ≠ ∅ := by
      intro h
      rw [h] at hmem
      exact absurd hmem (Finset.not_mem_empty _)
    simp only [apply_movement]
    by_cases hv : ms * i.1 * (ms * i.1) + ms * i.2 * (ms * i.2) = 0
    · rw [if_pos (Or.inl hv)]
      obtain ⟨h1, h2⟩ := sq_add_sq_eq_zero hv
      rw [h1, h2]
      simp
    · rw [if_neg (not_or.mpr ⟨hv, hb⟩), if_pos hmem]
  · intro hb hmem
    simp only [apply_movement]
    by_cases hv : ms * i.1 * (ms * i.1) + ms * i.2 * (ms * i.2) = 0
    · rw [if_pos (Or.inl hv)]
      obtain ⟨h1, h2⟩ := sq_add_sq_eq_zero hv
      rw [h1, h2]
      simp
    · rw [if_neg (not_or.mpr ⟨hv, hb⟩), if_neg hmem]

/-- C4 witness: with blocked = {(0,0)}, grid 2×2, map 1×1, no offset, an actor
at the origin with unit velocity and dt = 0 targets tile (0,0) and is stopped;
with an empty blocked set the same intent is applied unconditionally. -/
theorem movement_collision_gating_witness :
    apply_movement
      { blocked := {(0, 0)}, map_size := (1, 1), grid_size := (2, 2),
        layer_offset := (0, 0) } (0, 0, 0) 1 (1, 0) 0 = (0, 0, 0) ∧
    apply_movement default_collision_tiles (0, 0, 0) 1 (1, 0) 1 = (0 + 1 * 1 * 1, 0 + 1 * 0 * 1, 0) :=
  ⟨(movement_collision_gating
      { blocked := {(0, 0)}, map_size := (1, 1), grid_size := (2, 2),
        layer_offset := (0, 0) } (0, 0, 0) 1 (1, 0) 0).2.1
      (by norm_num [world_to_iso_tile]),
   (movement_collision_gating default_collision_tiles (0, 0, 0) 1 (1, 0) 1).1 rfl⟩

/-- C5: processing a finite tile layer rebuilds the collision grid iff the
layer's name is exactly `"Collisions"`: the blocked set is cleared and refilled
from the layer scan, `map_size`/`grid_size` come from the map document and
`layer_offset` is `(offset_x, -offset_y)`; any other name leaves the resource
untouched. -/
theorem collision_layer_gate (doc : TiledMapDoc) (ts : Nat) (layer : TiledLayer)
    (grid : FiniteGrid) (c : CollisionTiles)
    (hk : layer.kind = LayerKind.tiles_finite grid) :
    (layer.name = "Collisions" →
       process_layer_collisions doc ts layer c =
         { blocked := (collision_inserts grid doc.width doc.height ts).toFinset
           map_size := (doc.width, doc.height)
           grid_size := ((doc.tile_width : ℚ), (doc.tile_height : ℚ))
           layer_offset := (layer.offset_x, -layer.offset_y) }) ∧
    (layer.name ≠ "Collisions" → process_layer_collisions doc ts layer c = c) := by
  constructor <;> intro hn <;>
    simp [process_layer_collisions, hk, hn, rebuilt_collisions]

/-- C5 witness: the concrete collision layer of `doc_c` rebuilds a stale
collision state into blocked = {(1,1)}, sizes from the document, offset
`(0, -0)`. -/
theorem collision_layer_gate_witness :
    process_layer_collisions doc_c 0 layer_c stale_c =
      { blocked := {(1, 1)}, map_size := (3, 3), grid_size := (32, 32),
        layer_offset := (0, -0) } := by
  have h := (collision_layer_gate doc_c 0 layer_c grid_c stale_c rfl).1 rfl
  rw [h]
  norm_num [doc_c, layer_c, collision_inserts, cell_collision, grid_c, List.range_succ]
  decide

/-- C9: the default collision resource has an empty blocked set and zero grid
size; whenever the blocked set is empty the movement query applies the intent
unconditionally and its result does not depend on the grid size at all (so the
zero grid size is never used as a divisor); and the reconciler can only turn
the blocked set nonempty by a collision-layer rebuild that simultaneously sets
`grid_size` and `map_size` from the map document. -/
theorem empty_blocked_grid_guard :
    default_collision_tiles.blocked = ∅ ∧
    default_collision_tiles.grid_size = (0, 0) ∧
    (∀ (c : CollisionTiles) (t : ℚ × ℚ × ℚ) (ms : ℚ) (i : ℚ × ℚ) (dt : ℚ) (gs : ℚ × ℚ),
       c.blocked = ∅ →
         apply_movement c t ms i dt
             = apply_movement { c with grid_size := gs } t ms i dt ∧
         apply_movement c t ms i dt
             = (t.1 + ms * i.1 * dt, t.2.1 + ms * i.2 * dt, t.2.2)) ∧
    (∀ (doc : TiledMapDoc) (ts : Nat) (layer : TiledLayer) (c : CollisionTiles),
       (process_layer_collisions doc ts layer c).blocked ≠ ∅ →
         c.blocked ≠ ∅ ∨
           ((process_layer_collisions doc ts layer c).grid_size
               = ((doc.tile_width : ℚ), (doc.tile_height : ℚ)) ∧
            (process_layer_collisions doc ts layer c).map_size = (doc.width, doc.height))) := by
  refine ⟨rfl, rfl, ?_, ?_⟩
  · intro c t ms i dt gs hb
    constructor
    · simp only [apply_movement]
      rw [if_pos (Or.inr hb), if_pos (Or.inr hb)]
    · simp only [apply_movement]
      rw [if_pos (Or.inr hb), zero_mul, add_zero]
  · intro doc ts layer c hbne
    cases hk : layer.kind with
    | tiles_finite grid =>
        by_cases hn : layer.name = "Collisions"
        · right
          simp [process_layer_collisions, hk, hn, rebuilt_collisions]
        · left
          simpa [process_layer_collisions, hk, hn] using hbne
    | tiles_infinite =>
        left
        simpa [process_layer_collisions, hk] using hbne
    | not_tiles =>
        left
        simpa [process_layer_collisions, hk] using hbne

/-- C9 witness: movement over the default (empty, zero-grid) collision
resource applies the intent unconditionally. -/
theorem empty_blocked_grid_guard_witness :
    apply_movement default_collision_tiles (1, 2, 3) 4 (5, 6) 7 = (141, 170, 3) := by
  have h := (empty_blocked_grid_guard.2.2.1 default_collision_tiles
    (1, 2, 3) 4 (5, 6) 7 (9, 9) rfl).2
  rw [h]
  norm_num

/-- C10: the movement query never changes the z component of the actor's
translation, whether the move is applied or rejected. -/
theorem movement_preserves_z (c : CollisionTiles) (t : ℚ × ℚ × ℚ)
    (max_speed : ℚ) (intent : ℚ × ℚ) (dt : ℚ) :
    (apply_movement c t max_speed intent dt).2.2 = t.2.2 := by
  simp only [apply_movement]
  split_ifs <;> simp

/-- Auxiliary: a fold whose steps are each either constant in the accumulator
or the identity gives the same result from two starting points, or fixes
both. -/
theorem foldl_const_or_id {α β : Type} (f : α → β → α)
    (hf : ∀ b, (∀ a₁ a₂ : α, f a₁ b = f a₂ b) ∨ (∀ a : α, f a b = a)) :
    ∀ (L : List β) (a₁ a₂ : α),
      List.foldl f a₁ L = List.foldl f a₂ L ∨
        (List.foldl f a₁ L = a₁ ∧ List.foldl f a₂ L = a₂) := by
  intro L
  induction L with
  | nil => intro a₁ a₂; right; exact ⟨rfl, rfl⟩
  | cons b L ih =>
      intro a₁ a₂
      cases hf b with
      | inl hconst =>
          left
          simp only [List.foldl_cons]
          rw [hconst a₁ a₂]
      | inr hid =>
          simp only [List.foldl_cons, hid a₁, hid a₂]
          exact ih a₁ a₂

/-- Auxiliary: such a fold is idempotent. -/
theorem foldl_const_or_id_idem {α β : Type} (f : α → β → α)
    (hf : ∀ b, (∀ a₁ a₂ : α, f a₁ b = f a₂ b) ∨ (∀ a : α, f a b = a))
    (L : List β) (a : α) :
    List.foldl f (List.foldl f a L) L = List.foldl f a L := by
  rcases foldl_const_or_id f hf L (List.foldl f a L) a with h | ⟨h1, _⟩
  · exact h
  · exact h1

/-- Auxiliary: each pass is either constant in the collision resource (a
collision-layer rebuild) or the identity on it. -/
theorem collision_step_const_or_id (doc : TiledMapDoc) (p : Nat × Nat) :
    (∀ c₁ c₂, collision_step doc c₁ p = collision_step doc c₂ p) ∨
      (∀ c, collision_step doc c p = c) := by
  cases hl : doc.layers[p.2]? with
  | none => right; intro c; simp [collision_step, hl]
  | some layer =>
      cases hk : layer.kind with
      | tiles_finite grid =>
          by_cases hn : layer.name = "Collisions"
          · left
            intro c₁ c₂
            simp [collision_step, hl, process_layer_collisions, hk, hn]
          · right
            intro c
            simp [collision_step, hl, process_layer_collisions, hk, hn]
      | tiles_infinite =>
          right; intro c; simp [collision_step, hl, process_layer_collisions, hk]
      | not_tiles =>
          right; intro c; simp [collision_step, hl, process_layer_collisions, hk]

/-- Auxiliary: the first projection of one reconcile pass is its collision
component. -/
theorem reconcile_step_fst (doc : TiledMapDoc) (st : CollisionTiles × RegistryContent)
    (p : Nat × Nat) : (reconcile_step doc st p).1 = collision_step doc st.1 p := by
  simp only [reconcile_step, collision_step]
  cases hl : doc.layers[p.2]? with
  | none => rfl
  | some layer =>
      cases hk : layer.kind with
      | tiles_finite grid => simp [process_layer_collisions, hk]
      | tiles_infinite => simp [process_layer_collisions, hk]
      | not_tiles => simp [process_layer_collisions, hk]

/-- Auxiliary: the second projection of one reconcile pass is its registry
component. -/
theorem reconcile_step_snd (doc : TiledMapDoc) (st : CollisionTiles × RegistryContent)
    (p : Nat × Nat) : (reconcile_step doc st p).2 = registry_step doc st.2 p := by
  simp only [reconcile_step, registry_step]
  cases hl : doc.layers[p.2]? with
  | none => rfl
  | some layer =>
      cases hk : layer.kind with
      | tiles_finite grid => simp [hk]
      | tiles_infinite => simp [hk]
      | not_tiles => simp [hk]

/-- Auxiliary: the reconcile fold projects onto the collision fold. -/
theorem reconcile_foldl_fst (doc : TiledMapDoc) :
    ∀ (L : List (Nat × Nat)) (c : CollisionTiles) (r : RegistryContent),
      (List.foldl (reconcile_step doc) (c, r) L).1 = List.foldl (collision_step doc) c L := by
  intro L
  induction L with
  | nil => intro c r; rfl
  | cons p L ih =>
      intro c r
      simp only [List.foldl_cons]
      rcases hstep : reconcile_step doc (c, r) p with ⟨c', r'⟩
      have hc : c' = collision_step doc c p := by
        have := reconcile_step_fst doc (c, r) p
        rw [hstep] at this
        exact this
      rw [ih c' r', hc]

/-- Auxiliary: the reconcile fold projects onto the registry fold. -/
theorem reconcile_foldl_snd (doc : TiledMapDoc) :
    ∀ (L : List (Nat × Nat)) (c : CollisionTiles) (r : RegistryContent),
      (List.foldl (reconcile_step doc) (c, r) L).2 = List.foldl (registry_step doc) r L := by
  intro L
  induction L with
  | nil => intro c r; rfl
  | cons p L ih =>
      intro c r
      simp only [List.foldl_cons]
      rcases hstep : reconcile_step doc (c, r) p with ⟨c', r'⟩
      have hr : r' = registry_step doc r p := by
        have := reconcile_step_snd doc (c, r) p
        rw [hstep] at this
        exact this
      rw [ih c' r', hr]

/-- Auxiliary: first-wins folds restart from `none` cleanly. -/
theorem foldl_oget {β γ : Type} (f : β → Option γ) :
    ∀ (L : List β) (a : Option γ),
      List.foldl (fun acc b => oget (f b) acc) a L
        = oget (List.foldl (fun acc b => oget (f b) acc) none L) a := by
  intro L
  induction L with
  | nil => intro a; rfl
  | cons b L ih =>
      intro a
      simp only [List.foldl_cons]
      rw [ih (oget (f b) a), ih (oget (f b) none)]
      cases hF : List.foldl (fun acc b => oget (f b) acc) none L with
      | some w => rfl
      | none => cases hfb : f b <;> rfl

/-- Auxiliary: one registry pass at one index is the first-wins choice of the
pass's write over the previous content. -/
theorem registry_step_apply (doc : TiledMapDoc) (r : RegistryContent)
    (p : Nat × Nat) (i : Nat) :
    registry_step doc r p i = oget (registry_hit doc i p) (r i) := by
  simp only [registry_step, registry_hit]
  cases hl : doc.layers[p.2]? with
  | none => rfl
  | some layer =>
      cases hk : layer.kind with
      | tiles_finite grid =>
          by_cases hpi : i = p.2 <;> simp [hk, hpi, oget]
      | tiles_infinite => simp [hk, oget]
      | not_tiles => simp [hk, oget]

/-- Auxiliary: the registry fold looked up at one index is the last write at
that index over the previous content. -/
theorem registry_foldl_apply (doc : TiledMapDoc) :
    ∀ (L : List (Nat × Nat)) (r : RegistryContent) (i : Nat),
      List.foldl (registry_step doc) r L i = oget (last_hit doc L i) (r i) := by
  intro L
  induction L with
  | nil => intro r i; rfl
  | cons p L ih =>
      intro r i
      simp only [List.foldl_cons]
      rw [ih (registry_step doc r p) i, registry_step_apply doc r p i]
      have hcons : last_hit doc (p :: L) i
          = oget (last_hit doc L i) (oget (registry_hit doc i p) none) := by
        simp only [last_hit, List.foldl_cons]
        exact foldl_oget (registry_hit doc i) L (oget (registry_hit doc i p) none)
      rw [hcons]
      cases hA : last_hit doc L i with
      | some w => rfl
      | none => cases hB : registry_hit doc i p <;> rfl

/-- C7: reconciling the same unchanged document twice in succession produces
a collision resource and a registry content identical to the result of the
first reconciliation. -/
theorem reconcile_idempotent (doc : TiledMapDoc)
    (st : CollisionTiles × RegistryContent) :
    reconcile_map doc (reconcile_map doc st) = reconcile_map doc st := by
  have hfst :
      (reconcile_map doc (reconcile_map doc st)).1 = (reconcile_map doc st).1 := by
    simp only [reconcile_map, reconcile_foldl_fst]
    exact foldl_const_or_id_idem (collision_step doc)
      (collision_step_const_or_id doc) (pass_list doc) st.1
  have hR : (reconcile_map doc st).2
      = List.foldl (registry_step doc) (clear_registry_tiles st.2) (pass_list doc) := by
    simp only [reconcile_map]
    exact reconcile_foldl_snd doc (pass_list doc) st.1 (clear_registry_tiles st.2)
  have hsnd :
      (reconcile_map doc (reconcile_map doc st)).2 = (reconcile_map doc st).2 := by
    have hRR : (reconcile_map doc (reconcile_map doc st)).2
        = List.foldl (registry_step doc)
            (clear_registry_tiles (reconcile_map doc st).2) (pass_list doc) := by
      simp only [reconcile_map]
      exact reconcile_foldl_snd doc (pass_list doc) _ _
    rw [hRR, hR]
    funext i
    rw [registry_foldl_apply doc, registry_foldl_apply doc]
    cases hA : last_hit doc (pass_list doc) i with
    | some w => rfl
    | none =>
        simp only [oget, clear_registry_tiles]
        rw [registry_foldl_apply doc, hA]
        simp only [oget, clear_registry_tiles, Option.map_map]
        cases st.2 i <;> rfl
  exact Prod.ext hfst hsnd

/-- Auxiliary: one collision pass is the first-wins choice of the pass's
rebuild over the previous collision state. -/
theorem collision_step_apply (doc : TiledMapDoc) (c : CollisionTiles)
    (p : Nat × Nat) : collision_step doc c p = (collision_hit doc p).getD c := by
  simp only [collision_step, collision_hit]
  cases hl : doc.layers[p.2]? with
  | none => rfl
  | some layer =>
      cases hk : layer.kind with
      | tiles_finite grid =>
          by_cases hn : layer.name = "Collisions" <;>
            simp [hk, hn, process_layer_collisions]
      | tiles_infinite => simp [hk, process_layer_collisions]
      | not_tiles => simp [hk, process_layer_collisions]

/-- Auxiliary: the collision fold is the last rebuild over the previous
state. -/
theorem collision_foldl_apply (doc : TiledMapDoc) :
    ∀ (L : List (Nat × Nat)) (c : CollisionTiles),
      List.foldl (collision_step doc) c L
        = (L.foldl (fun acc p => oget (collision_hit doc p) acc) none).getD c := by
  intro L
  induction L with
  | nil => intro c; rfl
  | cons p L ih =>
      intro c
      simp only [List.foldl_cons]
      rw [ih (collision_step doc c p), collision_step_apply doc c p]
      rw [foldl_oget (collision_hit doc) L (oget (collision_hit doc p) none)]
      cases hA : L.foldl (fun acc q => oget (collision_hit doc q) acc) none with
      | some w => rfl
      | none => cases hB : collision_hit doc p <;> rfl

/-- Auxiliary: the collision resource after one full reconciliation is the
last collision rebuild of the pass list, or the previous resource when no
pass rebuilds it. -/
theorem reconcile_collision_last (doc : TiledMapDoc)
    (st : CollisionTiles × RegistryContent) :
    (reconcile_map doc st).1 = (last_collision doc).getD st.1 := by
  simp only [reconcile_map]
  rw [reconcile_foldl_fst doc (pass_list doc) st.1 (clear_registry_tiles st.2)]
  exact collision_foldl_apply doc (pass_list doc) st.1

/-- C3 counterexample: in `doc_2` the collision layer's (row-remapped) cell
(0, 0) is occupied by a tile of tileset 0, yet after a full reconciliation its
rotated coordinate `(0, 2-1-0) = (0, 1)` is absent from the blocked set: the
later pass for imaged tileset 1 cleared and refilled `blocked` with only its
own tileset's cells, so this occupied cell of the collision layer is omitted,
contrary to the claim. -/
theorem collision_rotation_counterexample :
    grid_2 0 (doc_2.height - 1 - 0)
        = some { tileset_index := 0, tile_id := 1, flip_h := false, flip_v := false,
                 flip_d := false } ∧
    ((0 : Int), (1 : Int)) ∉
      (reconcile_map doc_2 (default_collision_tiles, fun _ => none)).1.blocked := by
  constructor
  · rfl
  · decide

/-- C3 (amended): after reconciliation, the blocked set is the one produced by
the last `(imaged tileset, "Collisions" layer)` pass: a coordinate is blocked
iff it is the rotated image `(y, N-1-x)` of an occupied (row-remapped) cell
`(x, y)` whose tile belongs to that last pass's tileset `ts` — each such cell
contributes exactly its rotated coordinate and nothing else, while occupied
collision-layer cells of every other tileset are omitted. -/
theorem collision_rotation_after (doc : TiledMapDoc)
    (st : CollisionTiles × RegistryContent)
    (ts : Nat) (layer : TiledLayer) (grid : FiniteGrid)
    (hlast : last_collision doc = some (rebuilt_collisions doc ts layer grid)) :
    ∀ p : Int × Int,
      p ∈ (reconcile_map doc st).1.blocked ↔
        ∃ x y : Nat, x < doc.width ∧ y < doc.height ∧
          (∃ t, grid x (doc.height - 1 - y) = some t ∧ t.tileset_index = ts) ∧
          p = ((y : Int), (doc.width : Int) - 1 - (x : Int)) := by
  intro p
  have h1 := reconcile_collision_last doc st
  rw [hlast] at h1
  rw [h1]
  exact collision_inserts_mem grid doc.width doc.height ts p

/-- C3 witness: reconciling `doc_2` blocks exactly the rotated coordinate
`(0, 0)` of the occupied cell (1, 0) of the last imaged tileset 1. -/
theorem collision_rotation_after_witness :
    ((0 : Int), (0 : Int)) ∈
      (reconcile_map doc_2 (default_collision_tiles, fun _ => none)).1.blocked :=
  (collision_rotation_after doc_2 (default_collision_tiles, fun _ => none)
      1 layer_2 grid_2 (by decide) ((0 : Int), (0 : Int))).mpr
    ⟨1, 0, by decide, by decide,
      ⟨{ tileset_index := 1, tile_id := 2, flip_h := false, flip_v := false,
         flip_d := false }, rfl, rfl⟩, by decide⟩

/-- Auxiliary: the shape of a successful pass entry. -/
theorem build_entry_some (doc : TiledMapDoc) (p : Nat × Nat)
    (e : Nat × Nat × List TilePlacement) (h : build_entry doc p = some e) :
    ∃ layer grid, doc.layers[p.2]? = some layer ∧
      layer.kind = LayerKind.tiles_finite grid ∧
      e = (p.1, p.2, layer_placements grid doc.width doc.height p.1) := by
  unfold build_entry at h
  split at h
  next layer heq =>
    split at h
    next grid hkk =>
      injection h with h2
      exact ⟨layer, grid, heq, hkk, h2.symm⟩
    next hkk => simp at h
    next hkk => simp at h
  next heq => simp at h

/-- Auxiliary: membership in the pass list. -/
theorem pass_list_mem (doc : TiledMapDoc) (tsIdx li : Nat) :
    (tsIdx, li) ∈ pass_list doc ↔
      (tsIdx < doc.tilesets.length ∧
        ∃ tset, doc.tilesets[tsIdx]? = some tset ∧ tset.image.isSome = true) ∧
      li < doc.layers.length := by
  constructor
  · intro h
    simp only [pass_list, List.mem_flatMap] at h
    obtain ⟨a, ha, hmem⟩ := h
    obtain ⟨b, hb, hbe⟩ := List.mem_map.mp hmem
    injection hbe with h1 h2
    subst h1
    subst h2
    simp only [texture_indices, List.mem_filter, List.mem_range] at ha
    obtain ⟨hlt, hpred⟩ := ha
    refine ⟨⟨hlt, ?_⟩, List.mem_range.mp hb⟩
    cases hget : doc.tilesets[a]? with
    | none => rw [hget] at hpred; simp at hpred
    | some t =>
        rw [hget] at hpred
        exact ⟨t, rfl, hpred⟩
  · rintro ⟨⟨hlt, t, hget, himg⟩, hli⟩
    simp only [pass_list, List.mem_flatMap]
    refine ⟨tsIdx, ?_, List.mem_map.mpr ⟨li, List.mem_range.mpr hli, rfl⟩⟩
    simp only [texture_indices, List.mem_filter, List.mem_range]
    refine ⟨hlt, ?_⟩
    rw [hget]
    exact himg

/-- C8: a tileset without a resolved image contributes no built combination at
all, while every layer combination of every image-carrying tileset is still
built in full; the missing image never aborts the rebuild pass. -/
theorem missing_image_isolation (doc : TiledMapDoc) (k : Nat) (tk : TiledTileset)
    (hk : doc.tilesets[k]? = some tk) (hnone : tk.image = none) :
    (∀ e ∈ build_entries doc, e.1 ≠ k) ∧
    (∀ j tj, doc.tilesets[j]? = some tj → tj.image.isSome = true →
       ∀ li layer grid, doc.layers[li]? = some layer →
         layer.kind = LayerKind.tiles_finite grid →
         (j, li, layer_placements grid doc.width doc.height j) ∈ build_entries doc) := by
  constructor
  · intro e he hek
    obtain ⟨p, hp, hfp⟩ := List.mem_filterMap.mp he
    obtain ⟨layer, grid, hl, hkk, hee⟩ := build_entry_some doc p e hfp
    rcases p with ⟨a, b⟩
    have ha : a = k := by rw [hee] at hek; exact hek
    subst ha
    obtain ⟨⟨-, t, hget, himg⟩, -⟩ := (pass_list_mem doc a b).mp hp
    rw [hk] at hget
    injection hget with ht
    subst ht
    rw [hnone] at himg
    simp at himg
  · intro j tj htj himg li layer grid hlay hkind
    have hjlt : j < doc.tilesets.length := (List.getElem?_eq_some.mp htj).1
    have hlilt : li < doc.layers.length := (List.getElem?_eq_some.mp hlay).1
    refine List.mem_filterMap.mpr
      ⟨(j, li), (pass_list_mem doc j li).mpr ⟨⟨hjlt, tj, htj, himg⟩, hlilt⟩, ?_⟩
    unfold build_entry
    dsimp only
    rw [hlay]
    simp [hkind]

/-- C8 witness: in `doc_m` the imaged tileset 1 still builds its full layer
combination even though tileset 0 lacks an image. -/
theorem missing_image_isolation_witness :
    (1, 0, layer_placements grid_m 1 1 1) ∈ build_entries doc_m :=
  (missing_image_isolation doc_m 0 broken_tileset rfl rfl).2 1 ok_tileset
    rfl rfl 0 layer_m grid_m rfl rfl

/-- Auxiliary: an erase fold only removes elements. -/
theorem erase_foldl_subset (ts : List Nat) :
    ∀ (l : Finset Nat) (x : Nat),
      x ∈ ts.foldl (fun l2 t => l2.erase t) l → x ∈ l := by
  induction ts with
  | nil => intro l x h; exact h
  | cons t ts ih =>
      intro l x h
      simp only [List.foldl_cons] at h
      exact Finset.mem_of_mem_erase (ih (l.erase t) x h)

/-- Auxiliary: an erase fold removes every listed element. -/
theorem erase_foldl_not_mem (ts : List Nat) :
    ∀ (l : Finset Nat) (x : Nat), x ∈ ts →
      x ∉ ts.foldl (fun l2 t => l2.erase t) l := by
  induction ts with
  | nil => intro l x h; simp at h
  | cons t ts ih =>
      intro l x hx
      simp only [List.foldl_cons]
      by_cases hmem : x ∈ ts
      · exact ih (l.erase t) x hmem
      · have hxt : x = t := by
          rcases List.mem_cons.mp hx with h | h
          · exact h
          · exact absurd h hmem
        subst hxt
        intro hcon
        exact absurd (erase_foldl_subset ts (l.erase x) x hcon)
          (Finset.not_mem_erase x l)

/-- Auxiliary: the teardown fold only removes entities. -/
theorem despawn_foldl_subset (f : Nat → List Nat) (R : List (Nat × Nat)) :
    ∀ (l : Finset Nat) (x : Nat),
      x ∈ R.foldl (fun l1 kv => (f kv.2).foldl (fun l2 t2 => l2.erase t2) l1) l →
        x ∈ l := by
  induction R with
  | nil => intro l x h; exact h
  | cons q R ih =>
      intro l x h
      simp only [List.foldl_cons] at h
      exact erase_foldl_subset (f q.2) l x (ih _ x h)

/-- Auxiliary: the teardown fold removes every tile of every registered
layer. -/
theorem despawn_foldl_kills (f : Nat → List Nat) (R : List (Nat × Nat)) :
    ∀ (l : Finset Nat) (p : Nat × Nat) (t : Nat), p ∈ R → t ∈ f p.2 →
      t ∉ R.foldl (fun l1 kv => (f kv.2).foldl (fun l2 t2 => l2.erase t2) l1) l := by
  induction R with
  | nil => intro l p t hp; simp at hp
  | cons q R ih =>
      intro l p t hp ht
      simp only [List.foldl_cons]
      rcases List.mem_cons.mp hp with h | h
      · subst h
        intro hcon
        exact absurd (despawn_foldl_subset f R _ t hcon)
          (erase_foldl_not_mem (f p.2) l t ht)
      · exact ih _ p t h ht

/-- Auxiliary: one rebuild pass only increases the fresh-id counter. -/
theorem spawn_step_next_le (doc : TiledMapDoc) (s : EcsState) (p : Nat × Nat) :
    s.next_id ≤ (spawn_step doc s p).next_id := by
  unfold spawn_step
  split
  · split
    · unfold spawn_layer
      dsimp only
      omega
    · exact le_rfl
    · exact le_rfl
  · exact le_rfl

/-- Auxiliary: an insert fold does not affect membership of unlisted
elements. -/
theorem insert_foldl_mem (ids : List Nat) :
    ∀ (l : Finset Nat) (x : Nat), x ∉ ids →
      (x ∈ ids.foldl (fun l2 t => insert t l2) l ↔ x ∈ l) := by
  induction ids with
  | nil => intro l x h; exact Iff.rfl
  | cons t ids ih =>
      intro l x hx
      simp only [List.foldl_cons]
      have hxt : x ≠ t := fun h => hx (h ▸ List.mem_cons_self t ids)
      have hxids : x ∉ ids := fun h => hx (List.mem_cons_of_mem t h)
      rw [ih (insert t l) x hxids]
      simp [Finset.mem_insert, hxt]

/-- Auxiliary: spawning a layer does not affect liveness of entities below
the fresh-id counter. -/
theorem spawn_layer_mem_small (s : EcsState) (k n : Nat) (x : Nat)
    (hx : x < s.next_id) : (x ∈ (spawn_layer s k n).live ↔ x ∈ s.live) := by
  unfold spawn_layer
  dsimp only
  have hxids : x ∉ (List.range n).map (fun j => s.next_id + 1 + j) := by
    intro hmem
    obtain ⟨j, hj, hje⟩ := List.mem_map.mp hmem
    omega
  rw [insert_foldl_mem _ _ x hxids]
  have hxe : x ≠ s.next_id := by omega
  simp [Finset.mem_insert, hxe]

/-- Auxiliary: one rebuild pass does not affect liveness of entities below
the fresh-id counter. -/
theorem spawn_step_mem_small (doc : TiledMapDoc) (s : EcsState) (p : Nat × Nat)
    (x : Nat) (hx : x < s.next_id) :
    (x ∈ (spawn_step doc s p).live ↔ x ∈ s.live) := by
  unfold spawn_step
  split
  · split
    · exact spawn_layer_mem_small s _ _ x hx
    · exact Iff.rfl
    · exact Iff.rfl
  · exact Iff.rfl

/-- Auxiliary: the whole rebuild fold does not affect liveness of entities
below the initial fresh-id counter. -/
theorem spawn_foldl_mem_small (doc : TiledMapDoc) (L : List (Nat × Nat)) :
    ∀ (s : EcsState) (x : Nat), x < s.next_id →
      (x ∈ (L.foldl (spawn_step doc) s).live ↔ x ∈ s.live) := by
  induction L with
  | nil => intro s x hx; exact Iff.rfl
  | cons p L ih =>
      intro s x hx
      simp only [List.foldl_cons]
      have hx' : x < (spawn_step doc s p).next_id :=
        lt_of_lt_of_le hx (spawn_step_next_le doc s p)
      rw [ih _ x hx', spawn_step_mem_small doc s p x hx]

/-- Auxiliary: a registry insert keeps the keys duplicate-free. -/
theorem registry_insert_keys_nodup (reg : List (Nat × Nat)) (k v : Nat)
    (h : (reg.map Prod.fst).Nodup) :
    ((registry_insert reg k v).map Prod.fst).Nodup := by
  unfold registry_insert
  split
  next hany =>
    have hkeys : (reg.map (fun q => if q.1 = k then (k, v) else q)).map Prod.fst
        = reg.map Prod.fst := by
      rw [List.map_map]
      apply List.map_congr_left
      intro q hq
      by_cases hqk : q.1 = k
      · simp [hqk]
      · simp [hqk]
    rw [hkeys]
    exact h
  next hany =>
    rw [List.map_append]
    have hknotin : k ∉ reg.map Prod.fst := by
      intro hmem
      obtain ⟨q, hq, hqe⟩ := List.mem_map.mp hmem
      exact hany (List.any_eq_true.mpr ⟨q, hq, by simp [hqe]⟩)
    simp [List.nodup_append, h, hknotin]

/-- Auxiliary: the rebuild fold keeps the registry keys duplicate-free. -/
theorem spawn_foldl_registry_nodup (doc : TiledMapDoc) (L : List (Nat × Nat)) :
    ∀ (s : EcsState), (s.registry.map Prod.fst).Nodup →
      (((L.foldl (spawn_step doc) s).registry).map Prod.fst).Nodup := by
  induction L with
  | nil => intro s h; exact h
  | cons p L ih =>
      intro s h
      simp only [List.foldl_cons]
      apply ih
      unfold spawn_step
      split
      · split
        · unfold spawn_layer
          dsimp only
          exact registry_insert_keys_nodup s.registry _ _ h
        · exact h
        · exact h
      · exact h

/-- C6 counterexample: in the concrete world `ecs_c` the previously
registered layer entity 5 is still live after reconciling `doc_c` — the stale
layer handle is not destroyed (its despawn is commented out in the source),
contradicting the claim. -/
theorem stale_layer_handle_not_destroyed :
    5 ∈ (reconcile_entities doc_c ecs_c).live := by decide

/-- C6 amended: during reconciliation every tile placement owned by a
previously registered layer is despawned before the new layers are registered,
and the registry keeps exactly one entry per layer index; the stale layer
entity itself, however, is not despawned. -/
theorem stale_layer_tiles_despawned (doc : TiledMapDoc) (s : EcsState)
    (hwf : ∀ p ∈ s.registry, ∀ t ∈ s.tiles_of p.2, t < s.next_id) :
    (∀ p ∈ s.registry, ∀ t ∈ s.tiles_of p.2, t ∉ (reconcile_entities doc s).live) ∧
    ((s.registry.map Prod.fst).Nodup →
      (((reconcile_entities doc s).registry).map Prod.fst).Nodup) := by
  constructor
  · intro p hp t ht
    have htlt : t < s.next_id := hwf p hp t ht
    have hdesp : t ∉ (despawn_tiles s).live :=
      despawn_foldl_kills s.tiles_of s.registry s.live p t hp ht
    intro hcon
    simp only [reconcile_entities] at hcon
    exact hdesp
      ((spawn_foldl_mem_small doc (pass_list doc) (despawn_tiles s) t htlt).mp hcon)
  · intro h
    simp only [reconcile_entities]
    exact spawn_foldl_registry_nodup doc (pass_list doc) (despawn_tiles s) h

/-- C6 amended witness: the tile entity 6 owned by the stale layer entity 5 of
`ecs_c` is despawned by reconciling `doc_c`. -/
theorem stale_layer_tiles_despawned_witness :
    6 ∉ (reconcile_entities doc_c ecs_c).live :=
  (stale_layer_tiles_despawned doc_c ecs_c (by decide)).1 (0, 5) (by decide) 6 (by decide)

end Mythara
